import Mathlib

/-!
Shallow embedding of the VTEX order-fetch pipeline from
`API VTEX/Projeto Final/api.py` (`fetch_order_details` and
`FetchOrdersThread.run`).

Network I/O is modelled by an oracle (`Env`): every HTTP attempt the code can
make is answered by the oracle.  Monetary values are rationals (Python's
`/ 100` true division is exact on the inputs of interest).  The `requests`
library is modelled by the observable outcomes the code branches on: a 200
response carrying a JSON body, a 429 status, a non-200 HTTP error status
(`raise_for_status` raises), or a raised request exception (in which case the
Python local variable `response` keeps whatever value it had before — this
detail is modelled faithfully because the pagination loop reads `response`
after the retry loop).
-/

namespace Vtex

/-- One entry of the detail body's `totals` array: `{'id': …, 'value': …}`,
both keys optional (the code uses `.get`). -/
structure TotalEntry where
  id : Option String
  value : Option Int
deriving DecidableEq, Repr

/-- One entry of `shippingData.logisticsInfo`: the code only tests
`'listPrice' in item` and reads `item['listPrice']`. -/
structure LogiEntry where
  listPrice : Option Int
deriving DecidableEq, Repr

/-- JSON body of the per-order detail endpoint, restricted to the fields
`fetch_order_details` reads.  A missing `totals`/`shippingData.logisticsInfo`
key behaves exactly like an empty list under `.get(…, [])`, so those are
plain lists. -/
structure DetailBody where
  shippingValue : Option Int
  totals : List TotalEntry
  logisticsInfo : List LogiEntry
deriving DecidableEq, Repr

/-- Outcome of one HTTP attempt of the detail lookup. -/
inductive DAttempt where
  /-- 200 response with the given JSON body. -/
  | ok (body : DetailBody)
  /-- status code 429: sleep `2^attempt` and continue. -/
  | rate
  /-- `requests.get`/`raise_for_status` raised a `RequestException`. -/
  | exn
deriving DecidableEq, Repr

/-- One raw order record of a listing page, restricted to the keys `run`
reads: `order.get('status', 'unknown')` and `order.get('orderId')`. -/
structure OrderRec where
  orderId : Option String
  status : Option String
deriving DecidableEq, Repr

/-- JSON body of a listing page.  The outer `Option` on `paging` is presence
of the `"paging"` key; the inner one is presence of `"total"` inside it
(read with `.get("total", 0)`).  `list` is the `"list"` key. -/
structure ListingBody where
  paging : Option (Option Int)
  list : Option (List OrderRec)
deriving DecidableEq, Repr

/-- Outcome of one HTTP attempt of a listing page request. -/
inductive AttemptOut where
  /-- 200 response with the given body. -/
  | ok (body : ListingBody)
  /-- status code 429. -/
  | rate
  /-- non-200 HTTP status `code`: `raise_for_status` raises after `response`
  was assigned. -/
  | httpErr (code : Nat)
  /-- `requests.get` itself raised: the local `response` is left untouched. -/
  | netErr
deriving DecidableEq, Repr

/-- Value of the Python local `response` after a successful assignment:
either a 200 response with a parsed body, or a response with a non-200
status code. -/
inductive Resp where
  | ok (body : ListingBody)
  | err (code : Nat)
deriving DecidableEq, Repr

/-- The network oracle: `listing status page attempt` answers the
`attempt`-th try of the listing request for `(status, page)`, and
`detail orderId attempt` answers the `attempt`-th try of the per-order
detail lookup (the deduplication key, possibly `none`, identifies the
order). -/
structure Env where
  listing : String → Nat → Nat → AttemptOut
  detail : Option String → Nat → DAttempt

/-- Parsing of a 200 detail body: mirrors the body of `fetch_order_details`
after `response.json()`.  Returns `(shipping_value, shipping_list_price)`
in currency units (the code divides the upstream minor-unit ints by 100). -/
def parseDetail (data : DetailBody) : ℚ × ℚ :=
  let shipping_value : ℚ :=
    match data.shippingValue with
    | some v => (v : ℚ) / 100
    | none =>
      match data.totals.find? (fun t => t.id == some "Shipping") with
      | some t => ((t.value.getD 0 : Int) : ℚ) / 100
      | none => 0
  let shipping_list_price : ℚ :=
    match data.logisticsInfo.find? (fun it => it.listPrice.isSome) with
    | some it => ((it.listPrice.getD 0 : Int) : ℚ) / 100
    | none => shipping_value
  (shipping_value, shipping_list_price)

/-- The retry loop of `fetch_order_details`: `rem` attempts remain and the
next one has index `i` (so the loop runs attempts `i, …, i+rem-1`; the
current attempt is the last one of `range(max_retries)` exactly when
`rem = 1`).  A 429 sleeps and continues — falling out of the loop returns
`(0, 0)`; a request exception on the last attempt returns `(0, 0)`,
otherwise sleeps and retries; a 200 response is parsed and returned. -/
def detailAttempts (att : Nat → DAttempt) : Nat → Nat → ℚ × ℚ
  | 0, _ => (0, 0)
  | rem + 1, i =>
    match att i with
    | DAttempt.ok body => parseDetail body
    | DAttempt.rate => detailAttempts att rem (i + 1)
    | DAttempt.exn =>
      if rem = 0 then (0, 0) else detailAttempts att rem (i + 1)

/-- `fetch_order_details(order_id, config, headers, max_retries=3)`: the
oracle `att` stands for the sequence of HTTP outcomes for this order's
detail endpoint. -/
def fetch_order_details (att : Nat → DAttempt) : ℚ × ℚ :=
  detailAttempts att 3 0

/-- The inner `for attempt in range(max_retries)` loop of `run` for one
listing page.  `r` is the current value of the Python local `response`
(`none` = never assigned); returns the final `response` together with the
list of backoff sleeps (`2^attempt` seconds) performed.  On 429 the code
sleeps and continues (also on the last attempt); on an HTTP error status the
exception handler sleeps and retries except on the last attempt; on a raised
`requests.get` the local `response` keeps its previous value. -/
def listingAttempts (att : Nat → AttemptOut) :
    Nat → Nat → Option Resp → List Nat → Option Resp × List Nat
  | 0, _, r, sl => (r, sl)
  | rem + 1, i, r, sl =>
    match att i with
    | AttemptOut.ok body => (some (Resp.ok body), sl)
    | AttemptOut.rate =>
      listingAttempts att rem (i + 1) (some (Resp.err 429)) (sl ++ [2 ^ i])
    | AttemptOut.httpErr c =>
      if rem = 0 then (some (Resp.err c), sl)
      else listingAttempts att rem (i + 1) (some (Resp.err c)) (sl ++ [2 ^ i])
    | AttemptOut.netErr =>
      if rem = 0 then (r, sl)
      else listingAttempts att rem (i + 1) r (sl ++ [2 ^ i])

/-- An order record as appended to the result list: the original record with
the two shipping fields written back in minor currency units
(`order['shippingValue'] = shipping_value * 100`, likewise for the list
price). -/
structure EnrichedOrder where
  record : OrderRec
  shippingValue : ℚ
  shippingListPrice : ℚ
deriving DecidableEq, Repr

/-- The mutable locals of `FetchOrdersThread.run` that survive across loop
iterations.  `progressLog` records the values passed to
`self.progress.emit`, `sleepLog` the listing-loop backoff sleeps, and
`response` the Python local of the same name (`none` = not yet assigned). -/
structure RunState where
  orders : List EnrichedOrder
  order_ids : List (Option String)
  total_expected : Int
  orders_fetched : Nat
  progressLog : List Int
  response : Option Resp
  sleepLog : List Nat
deriving DecidableEq, Repr

instance : Inhabited RunState := ⟨⟨[], [], 0, 0, [], none, []⟩⟩

/-- `min(100, int((orders_fetched / total_expected) * 100))`.  `int(·)`
truncates toward zero and the exact value of the inner quotient is
`orders_fetched * 100 / total_expected`, so the whole expression is a
truncating integer division, `Int.tdiv` (Python evaluates the quotient in
floating point; the embedding uses the exact value). -/
def progressPercent (orders_fetched : Nat) (total_expected : Int) : Int :=
  min 100 (Int.tdiv ((orders_fetched : Int) * 100) total_expected)

/-- Enrichment of one order record via its detail lookup, fields written
back in minor units. -/
def enrich (env : Env) (rec : OrderRec) : EnrichedOrder :=
  ⟨rec, (fetch_order_details (env.detail rec.orderId)).1 * 100,
    (fetch_order_details (env.detail rec.orderId)).2 * 100⟩

/-- `orders.append(order); order_ids.add(order_id); orders_fetched += 1`. -/
def appendOrder (st : RunState) (e : EnrichedOrder) (oid : Option String) :
    RunState :=
  { st with
    orders := st.orders ++ [e]
    order_ids := st.order_ids ++ [oid]
    orders_fetched := st.orders_fetched + 1 }

/-- `if total_expected > 0: self.progress.emit(min(100, int(...)))`. -/
def emitProgress (st : RunState) : RunState :=
  if 0 < st.total_expected then
    { st with progressLog := st.progressLog ++
        [progressPercent st.orders_fetched st.total_expected] }
  else st

/-- Body of `for order in page_orders`: skip when the reported status is
outside the requested expansion, skip when the deduplication key was already
seen, otherwise enrich, append, mark seen and maybe emit progress. -/
def processOrder (env : Env) (statuses : List String) (rec : OrderRec)
    (st : RunState) : RunState :=
  if statuses.contains (rec.status.getD "unknown") then
    if st.order_ids.contains rec.orderId then st
    else emitProgress (appendOrder st (enrich env rec) rec.orderId)
  else st

/-- The whole `for order in page_orders` loop. -/
def processPageOrders (env : Env) (statuses : List String) :
    List OrderRec → RunState → RunState
  | [], st => st
  | rec :: rest, st =>
    processPageOrders env statuses rest (processOrder env statuses rec st)

/-- Store the retry loop's final `response` and its sleeps. -/
def withResp (st : RunState) (r : Option Resp) (sl : List Nat) : RunState :=
  { st with response := r, sleepLog := st.sleepLog ++ sl }

/-- `total_expected += data["paging"].get("total", 0)`. -/
def addTotal (st : RunState) (paging : Option Int) : RunState :=
  { st with total_expected := st.total_expected + paging.getD 0 }

/-- The `while True` pagination loop of `run` for one status, starting at
`page`, with recursion `fuel` (the Python loop has no built-in bound; every
claim is either independent of the cutoff or instantiated with enough fuel).
Reading of the branches, in source order: if the retry loop left `response`
unassigned, `response.status_code` raises and the outer `except Exception`
handler moves to the next status; a non-200 `response` breaks; a body
missing `"paging"` or `"list"` breaks; otherwise the page total is added,
the page's orders are processed, and pagination stops when the page is empty
or shorter than `per_page = 100`. -/
def statusPages (env : Env) (statuses : List String) (status : String) :
    Nat → Nat → RunState → RunState
  | 0, _, st => st
  | fuel + 1, page, st =>
    match listingAttempts (env.listing status page) 3 0 st.response [] with
    | (r, sl) =>
      match r with
      | some (Resp.ok data) =>
        match data.paging, data.list with
        | some paging, some pageOrders =>
          if pageOrders.isEmpty ∨ pageOrders.length < 100 then
            processPageOrders env statuses pageOrders
              (addTotal (withResp st r sl) paging)
          else
            statusPages env statuses status fuel (page + 1)
              (processPageOrders env statuses pageOrders
                (addTotal (withResp st r sl) paging))
        | _, _ => withResp st r sl
      | _ => withResp st r sl

/-- `for status in statuses:` — each status runs its pagination loop from
page 1; the full expansion `statuses` stays in scope for the membership
check inside the order loop. -/
def runStatuses (env : Env) (statuses : List String) (fuel : Nat) :
    List String → RunState → RunState
  | [], st => st
  | s :: rest, st =>
    runStatuses env statuses fuel rest (statusPages env statuses s fuel 1 st)

/-- The `status_map` dictionary; an unknown filter raises `KeyError`
(modelled as `none`). -/
def statusMap : String → Option (List String)
  | "Faturado" => some ["invoiced"]
  | "Pronto para Manuseio" => some ["ready-for-handling"]
  | "Todos" => some ["invoiced", "ready-for-handling"]
  | _ => none

/-- Initial locals of `run`: empty result list, empty seen-id set,
`total_expected = 0`, `orders_fetched = 0`, `response` unassigned. -/
def initState : RunState := ⟨[], [], 0, 0, [], none, []⟩

/-- `FetchOrdersThread.run` after the configuration check: expand the status
filter and process each status sequentially.  `none` models the `KeyError`
on an unknown filter. -/
def run (env : Env) (status_filter : String) (fuel : Nat) : Option RunState :=
  match statusMap status_filter with
  | none => none
  | some statuses => some (runStatuses env statuses fuel statuses initState)

/-! ### Concrete oracles used by the scenario theorems and witnesses -/

/-- A well-formed listing body with a reported total and a list of records. -/
def okBody (total : Int) (l : List OrderRec) : ListingBody :=
  ⟨some (some total), some l⟩

/-- An "invoiced" order record with id `"A"`. -/
def recA : OrderRec := ⟨some "A", some "invoiced"⟩

/-- A "ready-for-handling" order record with id `"B"`. -/
def recB : OrderRec := ⟨some "B", some "ready-for-handling"⟩

/-- An "invoiced" order record with id `"C"`. -/
def recC : OrderRec := ⟨some "C", some "invoiced"⟩

/-- An "invoiced" order record whose `orderId` key is missing. -/
def recNoId : OrderRec := ⟨none, some "invoiced"⟩

/-- Detail oracle answering every lookup immediately with a zero-shipping
body. -/
def detailOkZero : Option String → Nat → DAttempt :=
  fun _ _ => DAttempt.ok ⟨some 0, [], []⟩

/-- Witness oracle: one page per status suffices; the single invoiced page
holds a duplicate id, a record without id (twice) and one stray record. -/
def wEnv : Env where
  listing := fun s page _ =>
    if page = 1 then
      if s = "invoiced" then
        AttemptOut.ok (okBody 4 [recA, recA, recNoId, recNoId])
      else AttemptOut.ok (okBody 1 [recB])
    else AttemptOut.netErr
  detail := detailOkZero

/-- C3 failing input: page 1 answers 200 with a full page (100 records, all
the same id, reported total 150); every attempt of page 2 raises a request
exception; page 3 answers 200 with one new record. -/
def cex3Env : Env where
  listing := fun _ page _ =>
    if page = 1 then AttemptOut.ok (okBody 150 (List.replicate 100 recA))
    else if page = 2 then AttemptOut.netErr
    else if page = 3 then AttemptOut.ok (okBody 150 [recC])
    else AttemptOut.netErr
  detail := detailOkZero

/-- C6 counterexample input: one order whose detail response reports a
negative `listPrice` in its logistics info. -/
def cex6Env : Env where
  listing := fun _ page _ =>
    if page = 1 then AttemptOut.ok (okBody 1 [recA]) else AttemptOut.netErr
  detail := fun _ _ => DAttempt.ok ⟨none, [], [⟨some (-100)⟩]⟩

/-- C7 counterexample input: one status paginated over two pages, each page
reporting the same server total 150. -/
def cex7Env : Env where
  listing := fun _ page _ =>
    if page = 1 then AttemptOut.ok (okBody 150 (List.replicate 100 recA))
    else if page = 2 then AttemptOut.ok (okBody 150 [⟨some "B", some "invoiced"⟩])
    else AttemptOut.netErr
  detail := detailOkZero

/-- C8 counterexample input: the first status reports total 1 and yields one
order (progress 100); the second status then reports total 1000, so the next
emission drops to 0. -/
def cex8Env : Env where
  listing := fun s page _ =>
    if s = "invoiced" then
      (if page = 1 then AttemptOut.ok (okBody 1 [recA]) else AttemptOut.netErr)
    else
      (if page = 1 then AttemptOut.ok (okBody 1000 [recB]) else AttemptOut.netErr)
  detail := detailOkZero

/-- C5 witness oracle: page 1 of "invoiced" is fine, page 2 lacks the
`"list"` key; "ready-for-handling" has one page. -/
def w5Env : Env where
  listing := fun s page _ =>
    if s = "invoiced" then
      if page = 1 then AttemptOut.ok (okBody 150 (List.replicate 100 recA))
      else if page = 2 then AttemptOut.ok ⟨some (some 150), none⟩
      else AttemptOut.netErr
    else
      if page = 1 then AttemptOut.ok (okBody 1 [recB]) else AttemptOut.netErr
  detail := detailOkZero

/-- The three orders the witness oracle `wEnv` lets through, in emission
order. -/
def wOrderA : EnrichedOrder := enrich wEnv recA

/-- The single surviving no-id order of `wEnv`. -/
def wOrderNoId : EnrichedOrder := enrich wEnv recNoId

/-- The "ready-for-handling" order of `wEnv`. -/
def wOrderB : EnrichedOrder := enrich wEnv recB

/-- A mid-run state used by the C8 witness: nine orders fetched so far and
an accumulated expected total of 50. -/
def w8State : RunState := ⟨[], [], 50, 9, [], none, []⟩

/-- Listing oracle for the C4 witness (one page, one order). -/
def w4Listing : String → Nat → Nat → AttemptOut := fun _ page _ =>
  if page = 1 then AttemptOut.ok (okBody 1 [recA]) else AttemptOut.netErr

/-- Detail oracle that answers 429 to every attempt. -/
def detailAllRate : Option String → Nat → DAttempt := fun _ _ => DAttempt.rate

/-- Invariant maintained by the run loop: the seen-id set is exactly the
list of deduplication keys of the emitted orders (in order, without
duplicates), every emitted order passed the status check, and every emitted
order carries the shipping figures of its own detail lookup, in minor
units. -/
def Inv (env : Env) (statuses : List String) (st : RunState) : Prop :=
  st.order_ids = st.orders.map (fun o => o.record.orderId)
  ∧ st.order_ids.Nodup
  ∧ (∀ o ∈ st.orders, o.record.status.getD "unknown" ∈ statuses)
  ∧ (∀ o ∈ st.orders,
      o.shippingValue = (fetch_order_details (env.detail o.record.orderId)).1 * 100
      ∧ o.shippingListPrice
          = (fetch_order_details (env.detail o.record.orderId)).2 * 100)

/-- Two run states that agree on everything except the shipping figures
stored inside the emitted orders (the raw records themselves agree). -/
def SameModuloShipping (st st2 : RunState) : Prop :=
  st.orders.map (fun o => o.record) = st2.orders.map (fun o => o.record)
  ∧ st.order_ids = st2.order_ids
  ∧ st.total_expected = st2.total_expected
  ∧ st.orders_fetched = st2.orders_fetched
  ∧ st.progressLog = st2.progressLog
  ∧ st.response = st2.response
  ∧ st.sleepLog = st2.sleepLog

/-- All monetary fields a detail body exposes are non-negative. -/
def DetailBodyNonneg (b : DetailBody) : Prop :=
  (∀ v, b.shippingValue = some v → 0 ≤ v)
  ∧ (∀ t ∈ b.totals, ∀ v, t.value = some v → 0 ≤ v)
  ∧ (∀ it ∈ b.logisticsInfo, ∀ v, it.listPrice = some v → 0 ≤ v)

/-- Modelled pytz behaviour: attaching `pytz.timezone("America/Sao_Paulo")`
through the `tzinfo=` argument of `datetime.combine` — as `run` does — fixes
the zone's first transition entry, the local-mean-time offset rounded to
−03:06 (−186 minutes), instead of the −03:00 that `localize` would select.
(America/Sao_Paulo has no DST since 2019, so −03:00 is the correct
wall-clock offset for any present-day date.) -/
def lmtOffsetMinutes : Int := -186

/-- The standard America/Sao_Paulo UTC offset, −03:00, in minutes. -/
def stdOffsetMinutes : Int := -180

/-- A formatted boundary of the `creationDate` filter: absolute UTC second
plus the literal fractional part (in milliseconds) that the hard-coded
strftime format appends. -/
structure UtcBoundary where
  utcSeconds : Int
  millis : Nat
deriving DecidableEq, Repr

/-- Convert local clock seconds (counted from local midnight of day 0) to
UTC seconds under a fixed offset given in minutes. -/
def toUTCSeconds (localSeconds offsetMinutes : Int) : Int :=
  localSeconds - offsetMinutes * 60

/-- `start_utc` as `run` computes it: `datetime.combine(start_date,
datetime.min.time(), tzinfo=brazil_tz)` converted to UTC — the pytz
`tzinfo=` misuse applies the −03:06 offset — and formatted with the
hard-coded fractional part `.000`. -/
def start_utc (day : Int) : UtcBoundary :=
  ⟨toUTCSeconds (day * 86400) lmtOffsetMinutes, 0⟩

/-- `end_utc` as `run` computes it: `datetime.max.time()` is
23:59:59.999999, i.e. second 86399 of the local day; the format string
hard-codes `.999`. -/
def end_utc (day : Int) : UtcBoundary :=
  ⟨toUTCSeconds (day * 86400 + 86399) lmtOffsetMinutes, 999⟩

/-- The start boundary the claim describes: start of day on the
America/Sao_Paulo wall clock (offset −03:00), fractional second floored to
`.000`. -/
def start_utc_saoPaulo (day : Int) : UtcBoundary :=
  ⟨toUTCSeconds (day * 86400) stdOffsetMinutes, 0⟩

/-- The end boundary the claim describes: end of day on the
America/Sao_Paulo wall clock, fractional second ceilinged to `.999`. -/
def end_utc_saoPaulo (day : Int) : UtcBoundary :=
  ⟨toUTCSeconds (day * 86400 + 86399) stdOffsetMinutes, 999⟩

/-! ### Basic simp lemmas about the state transformers -/

@[simp] theorem withResp_orders (st : RunState) (r : Option Resp) (sl : List Nat) :
    (withResp st r sl).orders = st.orders := rfl

@[simp] theorem withResp_order_ids (st : RunState) (r : Option Resp) (sl : List Nat) :
    (withResp st r sl).order_ids = st.order_ids := rfl

@[simp] theorem withResp_total_expected (st : RunState) (r : Option Resp) (sl : List Nat) :
    (withResp st r sl).total_expected = st.total_expected := rfl

@[simp] theorem addTotal_orders (st : RunState) (p : Option Int) :
    (addTotal st p).orders = st.orders := rfl

@[simp] theorem addTotal_order_ids (st : RunState) (p : Option Int) :
    (addTotal st p).order_ids = st.order_ids := rfl

@[simp] theorem addTotal_total_expected (st : RunState) (p : Option Int) :
    (addTotal st p).total_expected = st.total_expected + p.getD 0 := rfl

@[simp] theorem withResp_orders_fetched (st : RunState) (r : Option Resp) (sl : List Nat) :
    (withResp st r sl).orders_fetched = st.orders_fetched := rfl

@[simp] theorem withResp_progressLog (st : RunState) (r : Option Resp) (sl : List Nat) :
    (withResp st r sl).progressLog = st.progressLog := rfl

@[simp] theorem withResp_response (st : RunState) (r : Option Resp) (sl : List Nat) :
    (withResp st r sl).response = r := rfl

@[simp] theorem withResp_sleepLog (st : RunState) (r : Option Resp) (sl : List Nat) :
    (withResp st r sl).sleepLog = st.sleepLog ++ sl := rfl

@[simp] theorem addTotal_orders_fetched (st : RunState) (p : Option Int) :
    (addTotal st p).orders_fetched = st.orders_fetched := rfl

@[simp] theorem addTotal_progressLog (st : RunState) (p : Option Int) :
    (addTotal st p).progressLog = st.progressLog := rfl

@[simp] theorem addTotal_response (st : RunState) (p : Option Int) :
    (addTotal st p).response = st.response := rfl

@[simp] theorem addTotal_sleepLog (st : RunState) (p : Option Int) :
    (addTotal st p).sleepLog = st.sleepLog := rfl

@[simp] theorem appendOrder_response (st : RunState) (e : EnrichedOrder) (oid : Option String) :
    (appendOrder st e oid).response = st.response := rfl

@[simp] theorem appendOrder_sleepLog (st : RunState) (e : EnrichedOrder) (oid : Option String) :
    (appendOrder st e oid).sleepLog = st.sleepLog := rfl

@[simp] theorem emitProgress_response (st : RunState) :
    (emitProgress st).response = st.response := by
  unfold emitProgress; split <;> rfl

@[simp] theorem emitProgress_sleepLog (st : RunState) :
    (emitProgress st).sleepLog = st.sleepLog := by
  unfold emitProgress; split <;> rfl

@[simp] theorem appendOrder_orders (st : RunState) (e : EnrichedOrder) (oid : Option String) :
    (appendOrder st e oid).orders = st.orders ++ [e] := rfl

@[simp] theorem appendOrder_order_ids (st : RunState) (e : EnrichedOrder) (oid : Option String) :
    (appendOrder st e oid).order_ids = st.order_ids ++ [oid] := rfl

@[simp] theorem appendOrder_total_expected (st : RunState) (e : EnrichedOrder) (oid : Option String) :
    (appendOrder st e oid).total_expected = st.total_expected := rfl

@[simp] theorem appendOrder_orders_fetched (st : RunState) (e : EnrichedOrder) (oid : Option String) :
    (appendOrder st e oid).orders_fetched = st.orders_fetched + 1 := rfl

@[simp] theorem appendOrder_progressLog (st : RunState) (e : EnrichedOrder) (oid : Option String) :
    (appendOrder st e oid).progressLog = st.progressLog := rfl

@[simp] theorem emitProgress_orders (st : RunState) :
    (emitProgress st).orders = st.orders := by
  unfold emitProgress; split <;> rfl

@[simp] theorem emitProgress_order_ids (st : RunState) :
    (emitProgress st).order_ids = st.order_ids := by
  unfold emitProgress; split <;> rfl

@[simp] theorem emitProgress_total_expected (st : RunState) :
    (emitProgress st).total_expected = st.total_expected := by
  unfold emitProgress; split <;> rfl

@[simp] theorem emitProgress_orders_fetched (st : RunState) :
    (emitProgress st).orders_fetched = st.orders_fetched := by
  unfold emitProgress; split <;> rfl

@[simp] theorem enrich_record (env : Env) (rec : OrderRec) :
    (enrich env rec).record = rec := rfl

@[simp] theorem enrich_shippingValue (env : Env) (rec : OrderRec) :
    (enrich env rec).shippingValue
      = (fetch_order_details (env.detail rec.orderId)).1 * 100 := rfl

@[simp] theorem enrich_shippingListPrice (env : Env) (rec : OrderRec) :
    (enrich env rec).shippingListPrice
      = (fetch_order_details (env.detail rec.orderId)).2 * 100 := rfl

/-- `processOrder` either leaves the state unchanged, or (when the record
passes the status check and its id is fresh) appends the enriched record. -/
theorem processOrder_eq (env : Env) (statuses : List String) (rec : OrderRec)
    (st : RunState) :
    processOrder env statuses rec st = st
    ∨ (rec.status.getD "unknown" ∈ statuses ∧ rec.orderId ∉ st.order_ids ∧
        processOrder env statuses rec st
          = emitProgress (appendOrder st (enrich env rec) rec.orderId)) := by
  unfold processOrder
  split
  case isTrue hs =>
    split
    case isTrue => left; rfl
    case isFalse hid =>
      right
      rw [show ∀ (l : List String) (a : String), l.contains a = l.elem a
        from fun _ _ => rfl, List.elem_iff] at hs
      rw [show ∀ (l : List (Option String)) (a : Option String),
        l.contains a = l.elem a from fun _ _ => rfl, List.elem_iff] at hid
      exact ⟨hs, hid, rfl⟩
  case isFalse => left; rfl

/-- Generic preservation of a state predicate through the page-order loop. -/
theorem processPageOrders_pres (env : Env) (statuses : List String)
    (P : RunState → Prop)
    (hP : ∀ rec st, P st → P (processOrder env statuses rec st)) :
    ∀ recs st, P st → P (processPageOrders env statuses recs st) := by
  intro recs
  induction recs with
  | nil => intro st h; exact h
  | cons r rest ih => intro st h; exact ih _ (hP r st h)

/-- Generic preservation of a state predicate through the pagination loop of
one status. -/
theorem statusPages_pres (env : Env) (statuses : List String) (status : String)
    (P : RunState → Prop)
    (hP : ∀ rec st, P st → P (processOrder env statuses rec st))
    (hResp : ∀ st r sl, P st → P (withResp st r sl))
    (hTot : ∀ st p, P st → P (addTotal st p)) :
    ∀ fuel page st, P st → P (statusPages env statuses status fuel page st) := by
  intro fuel
  induction fuel with
  | zero => intro page st h; exact h
  | succ n ih =>
    intro page st h
    rw [statusPages]
    rcases hls : listingAttempts (env.listing status page) 3 0 st.response []
      with ⟨r, sl⟩
    rcases r with _ | v
    · exact hResp st none sl h
    · rcases v with data | c
      · rcases hpg : data.paging with _ | pg
        · simp only [hpg]
          exact hResp st _ sl h
        · rcases hl : data.list with _ | pageOrders
          · simp only [hpg, hl]
            exact hResp st _ sl h
          · simp only [hpg, hl]
            split
            · exact processPageOrders_pres env statuses P hP pageOrders _
                (hTot _ pg (hResp st _ sl h))
            · exact ih (page + 1)
                (processPageOrders env statuses pageOrders
                  (addTotal (withResp st _ sl) pg))
                (processPageOrders_pres env statuses P hP pageOrders _
                  (hTot _ pg (hResp st _ sl h)))
      · exact hResp st _ sl h

/-- Generic preservation of a state predicate through the status loop. -/
theorem runStatuses_pres (env : Env) (statuses : List String) (fuel : Nat)
    (P : RunState → Prop)
    (hP : ∀ s fl page st, P st → P (statusPages env statuses s fl page st)) :
    ∀ l st, P st → P (runStatuses env statuses fuel l st) := by
  intro l
  induction l with
  | nil => intro st h; exact h
  | cons s rest ih => intro st h; exact ih _ (hP s fuel 1 st h)

/-! ### The main run invariant: seen-id set, deduplication, status filter,
enrichment provenance -/

theorem Inv_processOrder (env : Env) (statuses : List String) (rec : OrderRec)
    (st : RunState) (h : Inv env statuses st) :
    Inv env statuses (processOrder env statuses rec st) := by
  rcases processOrder_eq env statuses rec st with heq | ⟨hstat, hnew, heq⟩
  · rw [heq]; exact h
  · rw [heq]
    obtain ⟨h1, h2, h3, h4⟩ := h
    refine ⟨?_, ?_, ?_, ?_⟩
    · simp [h1]
    · simp only [emitProgress_order_ids, appendOrder_order_ids]
      simp [List.nodup_append, h2, hnew]
    · intro o ho
      simp only [emitProgress_orders, appendOrder_orders, List.mem_append,
        List.mem_singleton] at ho
      rcases ho with ho | rfl
      · exact h3 o ho
      · simpa using hstat
    · intro o ho
      simp only [emitProgress_orders, appendOrder_orders, List.mem_append,
        List.mem_singleton] at ho
      rcases ho with ho | rfl
      · exact h4 o ho
      · simp

theorem Inv_withResp (env : Env) (statuses : List String) (st : RunState)
    (r : Option Resp) (sl : List Nat) (h : Inv env statuses st) :
    Inv env statuses (withResp st r sl) := h

theorem Inv_addTotal (env : Env) (statuses : List String) (st : RunState)
    (p : Option Int) (h : Inv env statuses st) :
    Inv env statuses (addTotal st p) := h

theorem Inv_initState (env : Env) (statuses : List String) :
    Inv env statuses initState := by
  refine ⟨rfl, List.nodup_nil, ?_, ?_⟩ <;> intro o ho <;> cases ho

/-- Every successful run satisfies the invariant. -/
theorem Inv_run (env : Env) (status_filter : String) (fuel : Nat)
    (statuses : List String) (res : RunState)
    (hm : statusMap status_filter = some statuses)
    (h : run env status_filter fuel = some res) :
    Inv env statuses res := by
  unfold run at h
  rw [hm] at h
  cases h
  exact runStatuses_pres env statuses fuel (Inv env statuses)
    (fun s fl page st hst => statusPages_pres env statuses s (Inv env statuses)
      (Inv_processOrder env statuses)
      (Inv_withResp env statuses)
      (Inv_addTotal env statuses) fl page st hst)
    statuses initState (Inv_initState env statuses)

/-! ### Claim C1: order ids are unique in the final collection -/

/-- C1: in every run of the order-fetch pipeline, each `order_id` appears
exactly once in the final emitted order collection: a record whose
deduplication key is already in the seen-id set is skipped and never
appended again, across status queries and pages. -/
theorem c1_order_ids_unique (env : Env) (status_filter : String) (fuel : Nat)
    (res : RunState) (h : run env status_filter fuel = some res) :
    (res.orders.map (fun o => o.record.orderId)).Nodup := by
  obtain ⟨statuses, hm⟩ : ∃ statuses, statusMap status_filter = some statuses := by
    unfold run at h
    cases hs : statusMap status_filter with
    | none => rw [hs] at h; cases h
    | some s => exact ⟨s, rfl⟩
  obtain ⟨h1, h2, -, -⟩ := Inv_run env status_filter fuel statuses res hm h
  rw [h1] at h2
  exact h2

/-- Witness for C1 at a concrete oracle: the listing pages contain the id
`"A"` twice and a missing id twice, yet each key shows up once. -/
theorem c1_order_ids_unique_witness :
    (((run wEnv "Todos" 3).getD initState).orders.map
        (fun o => o.record.orderId)).Nodup :=
  c1_order_ids_unique wEnv "Todos" 3 ((run wEnv "Todos" 3).getD initState)
    (by rfl)

/-! ### Claim C2: every emitted order's status is in the requested set -/

/-- C2: every order in the final collection carries a status belonging to
the concrete expansion of the requested `status_filter`; page records whose
reported status (defaulting to `"unknown"` when the key is missing) lies
outside that set are skipped. -/
theorem c2_status_in_requested_set (env : Env) (status_filter : String)
    (fuel : Nat) (statuses : List String) (res : RunState)
    (hm : statusMap status_filter = some statuses)
    (h : run env status_filter fuel = some res) :
    ∀ o ∈ res.orders, o.record.status.getD "unknown" ∈ statuses
      ∧ ∃ s, o.record.status = some s ∧ s ∈ statuses := by
  obtain ⟨-, -, h3, -⟩ := Inv_run env status_filter fuel statuses res hm h
  have hunk : "unknown" ∉ statuses := by
    unfold statusMap at hm
    split at hm <;> cases hm <;> decide
  intro o ho
  have hmem := h3 o ho
  refine ⟨hmem, ?_⟩
  cases hst : o.record.status with
  | none =>
    rw [hst] at hmem
    exact absurd hmem hunk
  | some s => exact ⟨s, rfl, by rwa [hst] at hmem⟩

/-- Witness for C2 at a concrete oracle, instantiated at the first emitted
order. -/
theorem c2_status_in_requested_set_witness :
    wOrderA.record.status.getD "unknown" ∈ ["invoiced", "ready-for-handling"]
    ∧ ∃ s, wOrderA.record.status = some s
        ∧ s ∈ ["invoiced", "ready-for-handling"] :=
  c2_status_in_requested_set wEnv "Todos" 3 ["invoiced", "ready-for-handling"]
    ((run wEnv "Todos" 3).getD initState) (by rfl) (by rfl) wOrderA
    (by rw [show ((run wEnv "Todos" 3).getD initState).orders
          = [wOrderA, wOrderNoId, wOrderB] from rfl]
        exact List.mem_cons_self _ _)

/-- A list whose images under `f` are pairwise distinct has at most one
element mapped to `none`. -/
theorem filter_none_length_le_one {α : Type} (f : α → Option String) :
    ∀ l : List α, (l.map f).Nodup →
      (l.filter (fun a => f a == none)).length ≤ 1 := by
  intro l
  induction l with
  | nil => intro _; simp
  | cons a l ih =>
    intro h
    rw [List.map_cons, List.nodup_cons] at h
    obtain ⟨hnotin, hnd⟩ := h
    by_cases hfa : f a = none
    · rw [List.filter_cons_of_pos (by simp [hfa])]
      have hnil : l.filter (fun a => f a == none) = [] := by
        rw [List.filter_eq_nil_iff]
        intro x hx hxnone
        rw [beq_iff_eq] at hxnone
        exact hnotin (hfa ▸ hxnone ▸ List.mem_map_of_mem f hx)
      rw [hnil]
      simp
    · rw [List.filter_cons_of_neg (by simp [hfa])]
      exact ih hnd

/-! ### Claim C10: records without an orderId share the null dedup key -/

/-- C10: records lacking the `orderId` key all map to the same null
deduplication key, so at most one of them reaches the final collection in a
whole run; such a record is enriched through a detail lookup issued with the
null identifier. -/
theorem c10_null_dedup_key (env : Env) (status_filter : String) (fuel : Nat)
    (res : RunState) (h : run env status_filter fuel = some res) :
    (res.orders.filter (fun o => o.record.orderId == none)).length ≤ 1
    ∧ ∀ o ∈ res.orders, o.record.orderId = none →
        o.shippingValue = (fetch_order_details (env.detail none)).1 * 100
        ∧ o.shippingListPrice = (fetch_order_details (env.detail none)).2 * 100 := by
  obtain ⟨statuses, hm⟩ : ∃ statuses, statusMap status_filter = some statuses := by
    unfold run at h
    cases hs : statusMap status_filter with
    | none => rw [hs] at h; cases h
    | some s => exact ⟨s, rfl⟩
  obtain ⟨h1, h2, -, h4⟩ := Inv_run env status_filter fuel statuses res hm h
  constructor
  · rw [h1] at h2
    exact filter_none_length_le_one (fun o => o.record.orderId) res.orders h2
  · intro o ho hnone
    have := h4 o ho
    rwa [hnone] at this

/-- Witness for C10 at a concrete oracle: the invoiced page carries two
records with a missing `orderId`. -/
theorem c10_null_dedup_key_witness :
    ((((run wEnv "Todos" 3).getD initState).orders.filter
        (fun o => o.record.orderId == none)).length ≤ 1
      ∧ ∀ o ∈ ((run wEnv "Todos" 3).getD initState).orders,
          o.record.orderId = none →
          o.shippingValue = (fetch_order_details (wEnv.detail none)).1 * 100
          ∧ o.shippingListPrice
              = (fetch_order_details (wEnv.detail none)).2 * 100) :=
  c10_null_dedup_key wEnv "Todos" 3 ((run wEnv "Todos" 3).getD initState)
    (by rfl)

/-! ### Claim C4: detail-lookup failures never drop an order -/

theorem sms_processOrder (env env2 : Env) (_hl : env.listing = env2.listing)
    (statuses : List String) (rec : OrderRec) (st st2 : RunState)
    (h : SameModuloShipping st st2) :
    SameModuloShipping (processOrder env statuses rec st)
      (processOrder env2 statuses rec st2) := by
  obtain ⟨h1, h2, h3, h4, h5, h6, h7⟩ := h
  unfold processOrder
  rw [h2]
  split
  · split
    · exact ⟨h1, h2, h3, h4, h5, h6, h7⟩
    · unfold emitProgress appendOrder
      simp only [appendOrder_total_expected, h3, h4]
      split
      · refine ⟨?_, ?_, ?_, ?_, ?_, ?_, ?_⟩ <;>
          simp [enrich, h1, h2, h3, h4, h5, h6, h7]
      · refine ⟨?_, ?_, ?_, ?_, ?_, ?_, ?_⟩ <;>
          simp [enrich, h1, h2, h3, h4, h5, h6, h7]
  · exact ⟨h1, h2, h3, h4, h5, h6, h7⟩

theorem sms_processPageOrders (env env2 : Env) (hl : env.listing = env2.listing)
    (statuses : List String) :
    ∀ recs st st2, SameModuloShipping st st2 →
      SameModuloShipping (processPageOrders env statuses recs st)
        (processPageOrders env2 statuses recs st2) := by
  intro recs
  induction recs with
  | nil => intro st st2 h; exact h
  | cons r rest ih =>
    intro st st2 h
    exact ih _ _ (sms_processOrder env env2 hl statuses r st st2 h)

theorem sms_withResp (st st2 : RunState) (r : Option Resp) (sl : List Nat)
    (h : SameModuloShipping st st2) :
    SameModuloShipping (withResp st r sl) (withResp st2 r sl) := by
  obtain ⟨h1, h2, h3, h4, h5, h6, h7⟩ := h
  refine ⟨?_, ?_, ?_, ?_, ?_, ?_, ?_⟩ <;> simp [h1, h2, h3, h4, h5, h6, h7]

theorem sms_addTotal (st st2 : RunState) (p : Option Int)
    (h : SameModuloShipping st st2) :
    SameModuloShipping (addTotal st p) (addTotal st2 p) := by
  obtain ⟨h1, h2, h3, h4, h5, h6, h7⟩ := h
  refine ⟨?_, ?_, ?_, ?_, ?_, ?_, ?_⟩ <;> simp [h1, h2, h3, h4, h5, h6, h7]

theorem sms_statusPages (env env2 : Env) (hl : env.listing = env2.listing)
    (statuses : List String) (status : String) :
    ∀ fuel page st st2, SameModuloShipping st st2 →
      SameModuloShipping (statusPages env statuses status fuel page st)
        (statusPages env2 statuses status fuel page st2) := by
  intro fuel
  induction fuel with
  | zero => intro page st st2 h; exact h
  | succ n ih =>
    intro page st st2 h
    have h6 := h.2.2.2.2.2.1
    rw [statusPages, statusPages, ← hl, ← h6]
    rcases hls : listingAttempts (env.listing status page) 3 0 st.response []
      with ⟨r, sl⟩
    have hws := sms_withResp st st2 r sl h
    rcases r with _ | v
    · exact hws
    · rcases v with data | c
      · rcases hpg : data.paging with _ | pg
        · simp only [hpg]; exact hws
        · rcases hlst : data.list with _ | pageOrders
          · simp only [hpg, hlst]; exact hws
          · simp only [hpg, hlst]
            have hat := sms_addTotal _ _ pg hws
            split
            · exact sms_processPageOrders env env2 hl statuses pageOrders _ _ hat
            · exact ih (page + 1) _ _
                (sms_processPageOrders env env2 hl statuses pageOrders _ _ hat)
      · exact hws

theorem sms_run (env env2 : Env) (hl : env.listing = env2.listing)
    (status_filter : String) (fuel : Nat) (res res2 : RunState)
    (h : run env status_filter fuel = some res)
    (h2 : run env2 status_filter fuel = some res2) :
    SameModuloShipping res res2 := by
  unfold run at h h2
  cases hs : statusMap status_filter with
  | none => rw [hs] at h; cases h
  | some statuses =>
    rw [hs] at h h2
    cases h; cases h2
    have hrec : ∀ l st st2, SameModuloShipping st st2 →
        SameModuloShipping (runStatuses env statuses fuel l st)
          (runStatuses env2 statuses fuel l st2) := by
      intro l
      induction l with
      | nil => intro st st2 h; exact h
      | cons x rest ih =>
        intro st st2 h
        exact ih _ _ (sms_statusPages env env2 hl statuses x fuel 1 st st2 h)
    exact hrec statuses initState initState
      ⟨rfl, rfl, rfl, rfl, rfl, rfl, rfl⟩

/-- The detail retry loop returns `(0, 0)` when no attempt within the retry
ceiling succeeds (e.g. three consecutive 429 responses). -/
theorem fetch_order_details_exhausted (att : Nat → DAttempt)
    (h : ∀ i, i < 3 → ∀ b, att i ≠ DAttempt.ok b) :
    fetch_order_details att = (0, 0) := by
  unfold fetch_order_details
  rw [show (3 : Nat) = 2 + 1 from rfl, detailAttempts]
  rcases h0 : att 0 with b | _ | _
  · exact absurd h0 (h 0 (by omega) b)
  all_goals
    try rw [if_neg (by omega)]
    rw [show (2 : Nat) = 1 + 1 from rfl, detailAttempts]
    rcases h1 : att 1 with b | _ | _
    · exact absurd h1 (h 1 (by omega) b)
    all_goals
      try rw [if_neg (by omega)]
      rw [show (1 : Nat) = 0 + 1 from rfl, detailAttempts]
      rcases h2 : att 2 with b | _ | _
      · exact absurd h2 (h 2 (by omega) b)
      all_goals simp [detailAttempts]

/-- C4: an order is never dropped because its shipping-detail lookup failed:
the sequence of raw records in the final collection is independent of the
detail oracle; and any emitted order whose detail lookup never got a 200
response within the retry ceiling (e.g. three straight 429s) carries
shipping value 0 and shipping list price 0. -/
theorem c4_detail_failure_soft (env : Env)
    (d d2 : Option String → Nat → DAttempt) (status_filter : String)
    (fuel : Nat) (res res2 : RunState)
    (h : run { env with detail := d } status_filter fuel = some res)
    (h2 : run { env with detail := d2 } status_filter fuel = some res2) :
    res.orders.map (fun o => o.record) = res2.orders.map (fun o => o.record)
    ∧ ∀ o ∈ res.orders,
        (∀ i, i < 3 → ∀ b, d o.record.orderId i ≠ DAttempt.ok b) →
        o.shippingValue = 0 ∧ o.shippingListPrice = 0 := by
  constructor
  · exact (sms_run { env with detail := d } { env with detail := d2 } rfl
      status_filter fuel res res2 h h2).1
  · obtain ⟨statuses, hm⟩ : ∃ statuses,
        statusMap status_filter = some statuses := by
      unfold run at h
      cases hs : statusMap status_filter with
      | none => rw [hs] at h; cases h
      | some s => exact ⟨s, rfl⟩
    obtain ⟨-, -, -, h4⟩ :=
      Inv_run { env with detail := d } status_filter fuel statuses res hm h
    intro o ho hfail
    obtain ⟨hv, hlp⟩ := h4 o ho
    rw [fetch_order_details_exhausted (d o.record.orderId) hfail] at hv hlp
    simp at hv hlp
    exact ⟨hv, hlp⟩

/-- Witness for C4: same listing oracle, one detail oracle answering 429 to
everything, the other answering normally; the order with id "A" survives in
both runs and is zeroed in the first. -/
theorem c4_detail_failure_soft_witness :
    (((run { listing := w4Listing, detail := detailAllRate } "Faturado" 2).getD
        initState).orders.map (fun o => o.record)
      = ((run { listing := w4Listing, detail := detailOkZero } "Faturado" 2).getD
          initState).orders.map (fun o => o.record)
    ∧ ∀ o ∈ ((run { listing := w4Listing, detail := detailAllRate } "Faturado"
          2).getD initState).orders,
        (∀ i, i < 3 → ∀ b, detailAllRate o.record.orderId i ≠ DAttempt.ok b) →
        o.shippingValue = 0 ∧ o.shippingListPrice = 0) :=
  c4_detail_failure_soft { listing := w4Listing, detail := detailAllRate }
    detailAllRate detailOkZero "Faturado" 2
    (((run { listing := w4Listing, detail := detailAllRate } "Faturado" 2).getD
      initState))
    (((run { listing := w4Listing, detail := detailOkZero } "Faturado" 2).getD
      initState))
    (by rfl) (by rfl)

/-! ### Claim C5: malformed page bodies stop only that status's pagination -/

theorem orders_extend_processOrder (env : Env) (statuses : List String)
    (rec : OrderRec) (st : RunState) :
    ∃ t, (processOrder env statuses rec st).orders = st.orders ++ t := by
  rcases processOrder_eq env statuses rec st with heq | ⟨-, -, heq⟩
  · exact ⟨[], by rw [heq, List.append_nil]⟩
  · exact ⟨[enrich env rec], by rw [heq]; simp⟩

theorem orders_extend_processPageOrders (env : Env) (statuses : List String) :
    ∀ recs st, ∃ t,
      (processPageOrders env statuses recs st).orders = st.orders ++ t := by
  intro recs
  induction recs with
  | nil => intro st; exact ⟨[], by rw [List.append_nil]; rfl⟩
  | cons r rest ih =>
    intro st
    obtain ⟨t1, ht1⟩ := orders_extend_processOrder env statuses r st
    obtain ⟨t2, ht2⟩ := ih (processOrder env statuses r st)
    refine ⟨t1 ++ t2, ?_⟩
    show (processPageOrders env statuses rest
      (processOrder env statuses r st)).orders = _
    rw [ht2, ht1, List.append_assoc]

theorem orders_extend_statusPages (env : Env) (statuses : List String)
    (status : String) :
    ∀ fuel page st, ∃ t,
      (statusPages env statuses status fuel page st).orders = st.orders ++ t := by
  intro fuel
  induction fuel with
  | zero => intro page st; exact ⟨[], by rw [List.append_nil]; rfl⟩
  | succ n ih =>
    intro page st
    rw [statusPages]
    rcases hls : listingAttempts (env.listing status page) 3 0 st.response []
      with ⟨r, sl⟩
    rcases r with _ | v
    · exact ⟨[], by rw [List.append_nil]; rfl⟩
    · rcases v with data | c
      · rcases hpg : data.paging with _ | pg
        · simp only [hpg]
          exact ⟨[], by rw [List.append_nil]; rfl⟩
        · rcases hlst : data.list with _ | pageOrders
          · simp only [hpg, hlst]
            exact ⟨[], by rw [List.append_nil]; rfl⟩
          · simp only [hpg, hlst]
            split
            · obtain ⟨t, ht⟩ := orders_extend_processPageOrders env statuses
                pageOrders (addTotal (withResp st (some (Resp.ok data)) sl) pg)
              exact ⟨t, by rw [ht]; rfl⟩
            · obtain ⟨t1, ht1⟩ := orders_extend_processPageOrders env statuses
                pageOrders (addTotal (withResp st (some (Resp.ok data)) sl) pg)
              obtain ⟨t2, ht2⟩ := ih (page + 1)
                (processPageOrders env statuses pageOrders
                  (addTotal (withResp st (some (Resp.ok data)) sl) pg))
              refine ⟨t1 ++ t2, ?_⟩
              rw [ht2, ht1]
              simp [List.append_assoc]
      · exact ⟨[], by rw [List.append_nil]; rfl⟩

theorem orders_extend_runStatuses (env : Env) (statuses : List String)
    (fuel : Nat) :
    ∀ l st, ∃ t,
      (runStatuses env statuses fuel l st).orders = st.orders ++ t := by
  intro l
  induction l with
  | nil => intro st; exact ⟨[], by rw [List.append_nil]; rfl⟩
  | cons x rest ih =>
    intro st
    obtain ⟨t1, ht1⟩ := orders_extend_statusPages env statuses x fuel 1 st
    obtain ⟨t2, ht2⟩ := ih (statusPages env statuses x fuel 1 st)
    refine ⟨t1 ++ t2, ?_⟩
    show (runStatuses env statuses fuel rest
      (statusPages env statuses x fuel 1 st)).orders = _
    rw [ht2, ht1, List.append_assoc]

/-- A retry loop whose very first attempt returns 200 finishes immediately
with that response and no sleeps. -/
theorem listingAttempts_first_ok (att : Nat → AttemptOut) (b : ListingBody)
    (r : Option Resp) (h : att 0 = AttemptOut.ok b) :
    listingAttempts att 3 0 r [] = (some (Resp.ok b), []) := by
  rw [show (3 : Nat) = 2 + 1 from rfl, listingAttempts, h]

/-- C5: when some page of a status answers 200 with a body lacking the
`"paging"` or the `"list"` field, that status's pagination stops at that
page with the accumulated state untouched (only the stored `response`
changes), and the loop over any remaining statuses only ever appends to the
order collection — so orders collected from earlier pages of the status and
from other statuses all remain in the final result. -/
theorem c5_malformed_page_stops_status (env : Env) (statuses : List String)
    (status : String) (fuel page : Nat) (st : RunState) (b : ListingBody)
    (rest : List String) (fuel2 : Nat) (st2 : RunState)
    (hatt : env.listing status page 0 = AttemptOut.ok b)
    (hb : b.paging = none ∨ b.list = none) :
    statusPages env statuses status (fuel + 1) page st
      = { st with response := some (Resp.ok b) }
    ∧ ∃ t, (runStatuses env statuses fuel2 rest st2).orders
        = st2.orders ++ t := by
  refine ⟨?_, orders_extend_runStatuses env statuses fuel2 rest st2⟩
  rw [statusPages]
  rw [listingAttempts_first_ok _ _ _ hatt]
  obtain ⟨bp, bl⟩ := b
  rcases hb with hb | hb
  · simp only at hb
    subst hb
    obtain ⟨o, i, t, f, p, r0, s0⟩ := st
    simp [withResp]
  · simp only at hb
    subst hb
    cases bp with
    | none =>
      obtain ⟨o, i, t, f, p, r0, s0⟩ := st
      simp [withResp]
    | some pg =>
      obtain ⟨o, i, t, f, p, r0, s0⟩ := st
      simp [withResp]

/-- Witness for C5: page 2 of "invoiced" lacks the `"list"` field. -/
theorem c5_malformed_page_stops_status_witness :
    statusPages w5Env ["invoiced", "ready-for-handling"] "invoiced" 2 2
        initState
      = { initState with response := some (Resp.ok ⟨some (some 150), none⟩) }
    ∧ ∃ t, (runStatuses w5Env ["invoiced", "ready-for-handling"] 3
          ["ready-for-handling"] initState).orders
        = initState.orders ++ t :=
  c5_malformed_page_stops_status w5Env ["invoiced", "ready-for-handling"]
    "invoiced" 1 2 initState ⟨some (some 150), none⟩ ["ready-for-handling"] 3
    initState (by rfl) (Or.inr rfl)

/-! ### Claim C7: total_expected accumulates per page, not per status -/

theorem total_expected_processPageOrders (env : Env) (statuses : List String) :
    ∀ recs st, (processPageOrders env statuses recs st).total_expected
      = st.total_expected := by
  intro recs
  induction recs with
  | nil => intro st; rfl
  | cons r rest ih =>
    intro st
    show (processPageOrders env statuses rest
      (processOrder env statuses r st)).total_expected = _
    rw [ih]
    rcases processOrder_eq env statuses r st with heq | ⟨-, -, heq⟩ <;>
      rw [heq] <;> simp

set_option maxRecDepth 100000 in
/-- C7 counterexample: one status ("Faturado" → `["invoiced"]`) paginated
over two pages, each reporting server total 150; the accumulated
`total_expected` is 300, not the 150 that a once-per-status accumulation
would give. -/
theorem c7_total_expected_counterexample :
    ((run cex7Env "Faturado" 3).getD initState).total_expected = 300
    ∧ ¬ ((run cex7Env "Faturado" 3).getD initState).total_expected = 150 := by
  constructor
  · rfl
  · decide

/-- C7 amended: `total_expected` accumulates the reported total of every
successfully parsed page: a status whose pagination parses a full page
(100 records, reported total `t`) and then a short page (reported total
`t2`) contributes `t + t2`, i.e. one server-total per page rather than one
per status. -/
theorem c7_amended_total_per_page (env : Env) (statuses : List String)
    (status : String) (fuel page : Nat) (st : RunState) (t t2 : Int)
    (recs recs2 : List OrderRec)
    (h1 : env.listing status page 0
      = AttemptOut.ok ⟨some (some t), some recs⟩)
    (h2 : env.listing status (page + 1) 0
      = AttemptOut.ok ⟨some (some t2), some recs2⟩)
    (hlen : recs.length = 100) (hlen2 : recs2.length < 100) :
    (statusPages env statuses status (fuel + 2) page st).total_expected
      = st.total_expected + t + t2 := by
  rw [statusPages, listingAttempts_first_ok _ _ _ h1]
  dsimp only
  have hemp : recs.isEmpty = false := by
    cases recs with
    | nil => simp at hlen
    | cons a l => rfl
  rw [if_neg (by simp [hemp, hlen])]
  rw [statusPages, listingAttempts_first_ok _ _ _ h2]
  dsimp only
  rw [if_pos (Or.inr hlen2)]
  rw [total_expected_processPageOrders]
  simp only [addTotal_total_expected, withResp_total_expected, Option.getD_some]
  rw [total_expected_processPageOrders]
  simp only [addTotal_total_expected, withResp_total_expected, Option.getD_some]

/-- Witness for the amended C7 at the concrete two-page oracle. -/
theorem c7_amended_total_per_page_witness :
    (statusPages cex7Env ["invoiced"] "invoiced" 3 1 initState).total_expected
      = initState.total_expected + 150 + 150 :=
  c7_amended_total_per_page cex7Env ["invoiced"] "invoiced" 1 1 initState
    150 150 (List.replicate 100 recA) [⟨some "B", some "invoiced"⟩]
    (by rfl) (by rfl) (by simp) (by simp)

/-! ### Claim C8: the progress formula holds per emission, but the emitted
sequence is not monotonically non-decreasing -/

/-- For positive denominators the emitted percentage is the capped floor of
`orders_fetched * 100 / total_expected`. -/
theorem progressPercent_eq_div (of : Nat) (te : Int) (hte : 0 < te) :
    progressPercent of te
      = min 100 ⌊((of : ℚ) / (te : ℚ)) * 100⌋ := by
  unfold progressPercent
  congr 1
  obtain ⟨d, rfl⟩ : ∃ d : ℕ, te = (d : ℤ) :=
    ⟨te.toNat, (Int.toNat_of_nonneg hte.le).symm⟩
  rw [Int.tdiv_eq_ediv (by positivity) (by positivity)]
  rw [div_mul_eq_mul_div,
    show ((of : ℚ) * 100) = (((of * 100 : ℕ) : ℤ) : ℚ) by push_cast; ring,
    show (((d : ℕ) : ℤ) : ℚ) = ((d : ℕ) : ℚ) by push_cast; ring,
    Rat.floor_intCast_div_natCast]
  norm_cast

/-- C8 counterexample: with status filter "Todos", the first status reports
total 1 and yields an order (progress 100), the second reports total 1000;
the next emission is 0, so the emitted sequence `[100, 0]` is not
monotonically non-decreasing. -/
theorem c8_progress_not_monotonic :
    ((run cex8Env "Todos" 2).getD initState).progressLog = [100, 0]
    ∧ ¬ List.Chain' (fun a b => a ≤ b)
        (((run cex8Env "Todos" 2).getD initState).progressLog) := by
  refine ⟨rfl, ?_⟩
  rw [show ((run cex8Env "Todos" 2).getD initState).progressLog = [100, 0]
    from rfl]
  intro hchain
  exact absurd (List.chain'_cons.mp hchain).1 (by norm_num)

/-- C8 amended: every emission appends exactly
`min(100, floor(orders_fetched * 100 / total_expected))` evaluated at the
state of the emission (the order counter already incremented), and no
emission happens when `total_expected` is zero.  The emitted sequence over a
run need not be monotone, because `total_expected` can grow between
emissions. -/
theorem c8_amended_progress_formula (env : Env) (statuses : List String)
    (rec : OrderRec) (st : RunState) :
    (st.total_expected = 0 →
      (processOrder env statuses rec st).progressLog = st.progressLog)
    ∧ ((processOrder env statuses rec st).progressLog = st.progressLog
      ∨ (0 < st.total_expected ∧
        (processOrder env statuses rec st).progressLog
          = st.progressLog ++
            [min 100 ⌊(((st.orders_fetched + 1 : Nat) : ℚ)
              / (st.total_expected : ℚ)) * 100⌋])) := by
  rcases processOrder_eq env statuses rec st with heq | ⟨-, -, heq⟩
  · rw [heq]
    exact ⟨fun _ => rfl, Or.inl rfl⟩
  · rw [heq]
    unfold emitProgress
    constructor
    · intro h0
      rw [if_neg (by simp [h0])]
      simp
    · by_cases hpos : 0 < st.total_expected
      · right
        refine ⟨hpos, ?_⟩
        rw [if_pos (by simpa using hpos)]
        show (appendOrder st (enrich env rec) rec.orderId).progressLog ++ _ = _
        simp only [appendOrder_progressLog, appendOrder_orders_fetched,
          appendOrder_total_expected]
        rw [progressPercent_eq_div _ _ hpos]
      · left
        rw [if_neg (by simpa using hpos)]
        simp

/-- Witness for the amended C8 at a concrete state (`total_expected = 50`,
tenth order appended: the emitted value is `min(100, 20) = 20`). -/
theorem c8_amended_progress_formula_witness :
    (w8State.total_expected = 0 →
      (processOrder wEnv ["invoiced"] recA w8State).progressLog
        = w8State.progressLog)
    ∧ ((processOrder wEnv ["invoiced"] recA w8State).progressLog
        = w8State.progressLog
      ∨ (0 < w8State.total_expected ∧
        (processOrder wEnv ["invoiced"] recA w8State).progressLog
          = w8State.progressLog ++
            [min 100 ⌊(((w8State.orders_fetched + 1 : Nat) : ℚ)
              / (w8State.total_expected : ℚ)) * 100⌋])) :=
  c8_amended_progress_formula wEnv ["invoiced"] recA w8State

/-! ### Claim C3: retry exhaustion does not abandon the status's pagination
when an earlier 200 response is still stored (stale-response bug) -/

set_option maxRecDepth 400000 in
/-- C3 (divergence demo): for status "Faturado", page 1 answers 200 with a
full page (total 150), every attempt of page 2 raises a request exception
(the two backoff sleeps of 1 and 2 seconds are performed), yet pagination is
NOT abandoned: the Python local `response` still holds page 1's 200
response, so its body is re-parsed (its total re-added: 150·3 = 450) and the
loop proceeds to page 3, whose new order "C" reaches the final result. -/
theorem c3_stale_response_continues_pagination :
    ((run cex3Env "Faturado" 5).getD initState).orders.map
        (fun o => o.record.orderId) = [some "A", some "C"]
    ∧ ((run cex3Env "Faturado" 5).getD initState).total_expected = 450
    ∧ ((run cex3Env "Faturado" 5).getD initState).sleepLog = [1, 2] := by
  refine ⟨by rfl, by rfl, by rfl⟩

/-! ### Claim C6: shipping_list_price derivation -/

/-- C6 counterexample: a pipeline run in which an order's detail response
reports `listPrice = -100` in its logistics info; the order is emitted with
`shippingListPrice = -100 < 0`, refuting unconditional non-negativity. -/
theorem c6_negative_list_price_counterexample :
    ((run cex6Env "Faturado" 2).getD initState).orders.map
        (fun o => o.shippingListPrice) = [-100]
    ∧ ¬ ∀ o ∈ ((run cex6Env "Faturado" 2).getD initState).orders,
        0 ≤ o.shippingListPrice := by
  have horders : ((run cex6Env "Faturado" 2).getD initState).orders
      = [⟨recA, (fetch_order_details (cex6Env.detail (some "A"))).1 * 100,
          (fetch_order_details (cex6Env.detail (some "A"))).2 * 100⟩] := by rfl
  have hfetch2 : (fetch_order_details (cex6Env.detail (some "A"))).2 = -1 := by
    show ((-100 : Int) : ℚ) / 100 = -1
    norm_num
  constructor
  · rw [horders, List.map_singleton]
    show [(fetch_order_details (cex6Env.detail (some "A"))).2 * 100] = [-100]
    rw [hfetch2]
    norm_num
  · intro hall
    rw [horders] at hall
    have h1 := hall _ (List.mem_singleton_self _)
    rw [show (⟨recA, (fetch_order_details (cex6Env.detail (some "A"))).1 * 100,
        (fetch_order_details (cex6Env.detail (some "A"))).2 * 100⟩ :
        EnrichedOrder).shippingListPrice
        = (fetch_order_details (cex6Env.detail (some "A"))).2 * 100 from rfl,
      hfetch2] at h1
    norm_num at h1

theorem parseDetail_nonneg (b : DetailBody) (h : DetailBodyNonneg b) :
    0 ≤ (parseDetail b).1 ∧ 0 ≤ (parseDetail b).2 := by
  obtain ⟨h1, h2, h3⟩ := h
  have hsv : 0 ≤ (parseDetail b).1 := by
    show (0 : ℚ) ≤ ((match b.shippingValue with
      | some v => (v : ℚ) / 100
      | none =>
        match b.totals.find? (fun t => t.id == some "Shipping") with
        | some t => ((t.value.getD 0 : Int) : ℚ) / 100
        | none => 0) : ℚ)
    split
    case h_1 v hv =>
      have := h1 v hv
      positivity
    case h_2 =>
      split
      case h_1 t ht =>
        have hmem := List.mem_of_find?_eq_some ht
        cases hval : t.value with
        | none => simp [hval]
        | some v =>
          have := h2 t hmem v hval
          simp only [hval, Option.getD_some]
          positivity
      case h_2 => norm_num
  refine ⟨hsv, ?_⟩
  show (0 : ℚ) ≤ ((match b.logisticsInfo.find? (fun it => it.listPrice.isSome) with
    | some it => ((it.listPrice.getD 0 : Int) : ℚ) / 100
    | none => (parseDetail b).1) : ℚ)
  split
  case h_1 it hit =>
    have hmem := List.mem_of_find?_eq_some hit
    have hp := List.find?_some hit
    obtain ⟨v, hv⟩ := Option.isSome_iff_exists.mp hp
    have := h3 it hmem v hv
    simp only [hv, Option.getD_some]
    positivity
  case h_2 => exact hsv

theorem parseDetail_slp_eq_sv (b : DetailBody)
    (h : ∀ it ∈ b.logisticsInfo, it.listPrice = none) :
    (parseDetail b).2 = (parseDetail b).1 := by
  have hfind : b.logisticsInfo.find? (fun it => it.listPrice.isSome)
      = none := by
    rw [List.find?_eq_none]
    intro it hit
    simp [h it hit]
  show ((match b.logisticsInfo.find? (fun it => it.listPrice.isSome) with
    | some it => ((it.listPrice.getD 0 : Int) : ℚ) / 100
    | none => (parseDetail b).1) : ℚ) = (parseDetail b).1
  rw [hfind]

theorem detailAttempts_nonneg (att : Nat → DAttempt)
    (h : ∀ i b, att i = DAttempt.ok b → DetailBodyNonneg b) :
    ∀ rem i, 0 ≤ (detailAttempts att rem i).1
      ∧ 0 ≤ (detailAttempts att rem i).2 := by
  intro rem
  induction rem with
  | zero => intro i; exact ⟨le_refl 0, le_refl 0⟩
  | succ n ih =>
    intro i
    rw [detailAttempts]
    rcases hat : att i with b | _ | _
    · exact parseDetail_nonneg b (h i b hat)
    · exact ih (i + 1)
    · show 0 ≤ (if n = 0 then ((0 : ℚ), (0 : ℚ))
          else detailAttempts att n (i + 1)).1
        ∧ 0 ≤ (if n = 0 then ((0 : ℚ), (0 : ℚ))
          else detailAttempts att n (i + 1)).2
      split
      · exact ⟨le_refl 0, le_refl 0⟩
      · exact ih (i + 1)

theorem detailAttempts_slp_eq_sv (att : Nat → DAttempt)
    (h : ∀ i b, att i = DAttempt.ok b → ∀ it ∈ b.logisticsInfo,
      it.listPrice = none) :
    ∀ rem i, (detailAttempts att rem i).2 = (detailAttempts att rem i).1 := by
  intro rem
  induction rem with
  | zero => intro i; rfl
  | succ n ih =>
    intro i
    rw [detailAttempts]
    rcases hat : att i with b | _ | _
    · exact parseDetail_slp_eq_sv b (h i b hat)
    · exact ih (i + 1)
    · show (if n = 0 then ((0 : ℚ), (0 : ℚ))
          else detailAttempts att n (i + 1)).2
        = (if n = 0 then ((0 : ℚ), (0 : ℚ))
          else detailAttempts att n (i + 1)).1
      split
      · rfl
      · exact ih (i + 1)

/-- C6 amended: every emitted order's shipping figures are non-negative
whenever every monetary field the detail endpoint reports is non-negative
(negative upstream values propagate, so the unconditional claim fails); and
— unconditionally, for every detail oracle — whenever no logistics-info
entry exposes a list price, the emitted `shippingListPrice` equals the
emitted `shippingValue` (this also covers retry exhaustion, where both
are 0). -/
theorem c6_amended_list_price_derivation (env : Env) (status_filter : String)
    (fuel : Nat) (res : RunState)
    (h : run env status_filter fuel = some res) :
    ((∀ oid i b, env.detail oid i = DAttempt.ok b → DetailBodyNonneg b) →
      ∀ o ∈ res.orders, 0 ≤ o.shippingValue ∧ 0 ≤ o.shippingListPrice)
    ∧ ((∀ oid i b, env.detail oid i = DAttempt.ok b →
          ∀ it ∈ b.logisticsInfo, it.listPrice = none) →
        ∀ o ∈ res.orders, o.shippingListPrice = o.shippingValue) := by
  obtain ⟨statuses, hm⟩ : ∃ statuses,
      statusMap status_filter = some statuses := by
    unfold run at h
    cases hs : statusMap status_filter with
    | none => rw [hs] at h; cases h
    | some s => exact ⟨s, rfl⟩
  obtain ⟨-, -, -, h4⟩ := Inv_run env status_filter fuel statuses res hm h
  constructor
  · intro hd o ho
    obtain ⟨hv, hlp⟩ := h4 o ho
    obtain ⟨hn1, hn2⟩ := detailAttempts_nonneg (env.detail o.record.orderId)
      (fun i b hb => hd o.record.orderId i b hb) 3 0
    rw [hv, hlp]
    exact ⟨mul_nonneg hn1 (by norm_num), mul_nonneg hn2 (by norm_num)⟩
  · intro hnolp o ho
    obtain ⟨hv, hlp⟩ := h4 o ho
    have heq := detailAttempts_slp_eq_sv (env.detail o.record.orderId)
      (fun i b hb => hnolp o.record.orderId i b hb) 3 0
    rw [hv, hlp]
    exact congrArg (fun q => q * 100) heq

/-- Witness for the amended C6 at the zero-shipping detail oracle. -/
theorem c6_amended_list_price_derivation_witness :
    ((∀ oid i b, wEnv.detail oid i = DAttempt.ok b → DetailBodyNonneg b) →
      ∀ o ∈ ((run wEnv "Todos" 3).getD initState).orders,
        0 ≤ o.shippingValue ∧ 0 ≤ o.shippingListPrice)
    ∧ ((∀ oid i b, wEnv.detail oid i = DAttempt.ok b →
          ∀ it ∈ b.logisticsInfo, it.listPrice = none) →
        ∀ o ∈ ((run wEnv "Todos" 3).getD initState).orders,
          o.shippingListPrice = o.shippingValue) :=
  c6_amended_list_price_derivation wEnv "Todos" 3
    ((run wEnv "Todos" 3).getD initState) (by rfl)

/-! ### Claim C9: the date-filter boundaries -/

/-- C9 (divergence demo): because `run` attaches the pytz timezone through
`tzinfo=`, every boundary it sends is computed with the −03:06 LMT offset:
for day 0, the code produces start second 11160 (03:06:00Z) and end second
97559 (next day 03:05:59Z, fraction `.999`), whereas the conversion the
claim describes — the America/Sao_Paulo wall clock, offset −03:00 — gives
10800 (03:00:00Z) and 97199 (next day 02:59:59Z): the code's boundaries sit
360 seconds later than the specified ones. -/
theorem c9_pytz_lmt_offset_bug :
    start_utc 0 ≠ start_utc_saoPaulo 0
    ∧ end_utc 0 ≠ end_utc_saoPaulo 0
    ∧ (start_utc 0).utcSeconds = 11160
    ∧ (start_utc_saoPaulo 0).utcSeconds = 10800
    ∧ (end_utc 0).utcSeconds = 97559
    ∧ (end_utc_saoPaulo 0).utcSeconds = 97199 := by
  exact ⟨by decide, by decide, by decide, by decide, by decide, by decide⟩

end Vtex
